import Mathlib

/-!
Verification development for the soundDB `Accessor` pipeline engine
(`src/soundDB/accessor.py`).

The Python code is shallowly embedded: the per-record iteration loop
(`Accessor.__iter__`, its inner generator `iterate`), the lazy transform
stages (`__getattr__` / `__getitem__` / `__call__` / `group`), and the
result combiner (`Accessor.combine`, `Accessor.ID`,
`percentIndexOverlap`) become executable Lean functions.  Python
exceptions are modelled with `Except PyErr`; `GeneratorExit` (the
cancellation signal delivered at a `yield` when a consumer closes a
generator) is the distinguished constructor `PyErr.generatorExit`.
Pandas objects are modelled only through the capabilities the engine
uses: concatenation is an injected function, DataFrames are label sets
plus an index dtype tag, and exact rational arithmetic stands in for the
overlap-fraction division.
-/

/-- Python exception values, coarsened to the distinctions the engine's
`except` clauses make: `GeneratorExit` is special-cased by every stage,
`TypeError` is special-cased by the concatenation fallbacks, and an
unbound local read raises `UnboundLocalError`. -/
inductive PyErr where
  | generatorExit
  | typeError
  | unboundLocal : String → PyErr
  | exc : String → PyErr
deriving DecidableEq

/-- An `iyore.Entry` as the engine sees it: a set of named fields, an
attribute lookup (only ever read for names in `fields`), and a path
string.  Mirrors the external Catalog collaborator's Record interface. -/
structure Entry where
  fields : List String
  attr : String → String
  path : String

/-- The log line `iterate` writes when `parse` raises
(`'Error while parsing "{}":'.format(entry.path)`). -/
def logParseMsg (e : Entry) : String :=
  "Error while parsing \"" ++ e.path ++ "\":"

/-- The log line the transform stages write when their operation raises
(`'Error while processing "{}":'.format(str(entry))`); the traceback and
data repr that follow it are abstracted into this single record. -/
def logStageMsg (e : Entry) : String :=
  "Error while processing \"" ++ e.path ++ "\":"

/-- The inner generator of `Accessor.__iter__` (accessor.py lines
465-475), run to exhaustion: for each entry, call `parse`; on success
yield `(entry, data)`; on `GeneratorExit` re-raise; on any other
exception log the failure and continue with the next entry.  The
returned pair is (yielded pairs, log lines). -/
def iterateList (parse : Entry → Except PyErr σ) :
    List Entry → Except PyErr (List (Entry × σ) × List String)
  | [] => Except.ok ([], [])
  | e :: rest =>
    match parse e with
    | Except.ok d =>
      match iterateList parse rest with
      | Except.error err => Except.error err
      | Except.ok (out, logs) => Except.ok ((e, d) :: out, logs)
    | Except.error err =>
      if err = PyErr.generatorExit then Except.error PyErr.generatorExit
      else
        match iterateList parse rest with
        | Except.error err' => Except.error err'
        | Except.ok (out, logs) => Except.ok (out, logParseMsg e :: logs)

/-- The shared loop of the three non-group stage generators
(`do_getattr`, `do_getitem`, `do_call`, accessor.py lines 394-440),
which are textually identical apart from the operation applied to
`data`: for each upstream pair apply `op`; on success yield the
transformed pair; on `GeneratorExit` re-raise; on any other exception
log and skip the pair. -/
def stage_loop (op : σ → Except PyErr τ) :
    List (Entry × σ) → Except PyErr (List (Entry × τ) × List String)
  | [] => Except.ok ([], [])
  | (e, d) :: rest =>
    match op d with
    | Except.ok d' =>
      match stage_loop op rest with
      | Except.error err => Except.error err
      | Except.ok (out, logs) => Except.ok ((e, d') :: out, logs)
    | Except.error err =>
      if err = PyErr.generatorExit then Except.error PyErr.generatorExit
      else
        match stage_loop op rest with
        | Except.error err' => Except.error err'
        | Except.ok (out, logs) => Except.ok (out, logStageMsg e :: logs)

/-- Stage appended by `Accessor.__getattr__`; `op` is the attribute
access `getattr(data, attr)` on the opaque Structure. -/
def do_getattr (op : σ → Except PyErr τ) :
    List (Entry × σ) → Except PyErr (List (Entry × τ) × List String) :=
  stage_loop op

/-- Stage appended by `Accessor.__getitem__`; `op` is the indexing
`data.__getitem__(*index)` on the opaque Structure. -/
def do_getitem (op : σ → Except PyErr τ) :
    List (Entry × σ) → Except PyErr (List (Entry × τ) × List String) :=
  stage_loop op

/-- Stage appended by `Accessor.__call__`; `op` is the invocation
`data(*args, **kwargs)` on the opaque Structure. -/
def do_call (op : σ → Except PyErr τ) :
    List (Entry × σ) → Except PyErr (List (Entry × τ) × List String) :=
  stage_loop op

/-- When every parse succeeds, the base iteration yields one pair per
entry, in order, with the parsed value. -/
theorem iterateList_all_ok (parse : Entry → Except PyErr σ) (f : Entry → σ)
    (entries : List Entry) (h : ∀ e ∈ entries, parse e = Except.ok (f e)) :
    iterateList parse entries = Except.ok (entries.map (fun e => (e, f e)), []) := by
  induction entries with
  | nil => rfl
  | cons e rest ih =>
    have he : parse e = Except.ok (f e) := h e (List.mem_cons_self e rest)
    have hrest : ∀ x ∈ rest, parse x = Except.ok (f x) :=
      fun x hx => h x (List.mem_cons_of_mem e hx)
    simp only [iterateList, he, ih hrest, List.map]

/-- Characterization of the base iteration when no parse raises the
cancellation signal: it succeeds, yields exactly the successfully parsed
pairs in input order, and logs one line per failing entry. -/
theorem iterateList_no_cancel (parse : Entry → Except PyErr σ)
    (entries : List Entry)
    (h : ∀ e ∈ entries, parse e ≠ Except.error PyErr.generatorExit) :
    iterateList parse entries =
      Except.ok
        (entries.filterMap (fun e => (parse e).toOption.map (fun d => (e, d))),
         (entries.filter (fun e => !(parse e).isOk)).map logParseMsg) := by
  induction entries with
  | nil => rfl
  | cons e rest ih =>
    have he : parse e ≠ Except.error PyErr.generatorExit :=
      h e (List.mem_cons_self e rest)
    have hrest : ∀ x ∈ rest, parse x ≠ Except.error PyErr.generatorExit :=
      fun x hx => h x (List.mem_cons_of_mem e hx)
    cases hp : parse e with
    | ok d =>
      simp [iterateList, hp, ih hrest, List.filter_cons, Except.toOption,
        Except.isOk, Except.toBool]
    | error err =>
      have hne : err ≠ PyErr.generatorExit := by
        intro hcontra
        exact he (by rw [hp, hcontra])
      simp [iterateList, hp, if_neg hne, ih hrest, List.filter_cons,
        Except.toOption, Except.isOk, Except.toBool]

/-- Like `iterateList_no_cancel`, for a non-group transform stage. -/
theorem stage_loop_no_cancel (op : σ → Except PyErr τ)
    (pairs : List (Entry × σ))
    (h : ∀ p ∈ pairs, op p.2 ≠ Except.error PyErr.generatorExit) :
    stage_loop op pairs =
      Except.ok
        (pairs.filterMap (fun p => (op p.2).toOption.map (fun d => (p.1, d))),
         (pairs.filter (fun p => !(op p.2).isOk)).map (fun p => logStageMsg p.1)) := by
  induction pairs with
  | nil => rfl
  | cons p rest ih =>
    obtain ⟨e, d⟩ := p
    have he : op d ≠ Except.error PyErr.generatorExit :=
      h (e, d) (List.mem_cons_self (e, d) rest)
    have hrest : ∀ x ∈ rest, op x.2 ≠ Except.error PyErr.generatorExit :=
      fun x hx => h x (List.mem_cons_of_mem (e, d) hx)
    cases hp : op d with
    | ok d' =>
      simp [stage_loop, hp, ih hrest, List.filter_cons, Except.toOption,
        Except.isOk, Except.toBool]
    | error err =>
      have hne : err ≠ PyErr.generatorExit := by
        intro hcontra
        exact he (by rw [hp, hcontra])
      simp [stage_loop, hp, if_neg hne, ih hrest, List.filter_cons,
        Except.toOption, Except.isOk, Except.toBool]

/-- Summing yielded pairs and failures recovers the input length. -/
theorem filterMap_parse_length (parse : Entry → Except PyErr σ)
    (entries : List Entry) :
    (entries.filterMap (fun e => (parse e).toOption.map (fun d => (e, d)))).length
      + (entries.filter (fun e => !(parse e).isOk)).length = entries.length := by
  induction entries with
  | nil => rfl
  | cons e rest ih =>
    simp only [Except.toOption, Except.isOk, Except.toBool] at ih
    cases hp : parse e with
    | ok d =>
      simp [List.filter_cons, hp, Except.toOption, Except.isOk, Except.toBool]
      omega
    | error err =>
      simp [List.filter_cons, hp, Except.toOption, Except.isOk, Except.toBool]
      omega

/-- Folds the chained stage generators over the base iteration, the way
`__iter__` does with `for do in self._chain: iterate = do(iterate)`;
the chain here consists of homogeneous non-group stages, each a
`stage_loop` over its operation.  Logs accumulate across stages. -/
def runChain (chain : List (σ → Except PyErr σ)) (pairs : List (Entry × σ))
    (logs : List String) : Except PyErr (List (Entry × σ) × List String) :=
  match chain with
  | [] => Except.ok (pairs, logs)
  | op :: rest =>
    match stage_loop op pairs with
    | Except.error e => Except.error e
    | Except.ok (pairs', logs') => runChain rest pairs' (logs ++ logs')

/-- The pipeline object's state as `__iter__` reads it: the (already
materialized) record sequence the Catalog endpoint returns for the
stored filters/sort/limit — the external Record Source is deterministic,
so each `__iter__` call sees the same sequence — the injected `parse`,
the appended stage chain, and the progress-bar slot, the only attribute
`__iter__` assigns. -/
structure Pipeline (σ : Type) where
  entriesSource : List Entry
  parse : Entry → Except PyErr σ
  chain : List (σ → Except PyErr σ)
  progbarSet : Bool := false

/-- One full consumption of `Accessor.__iter__`: materialize the record
list, run the inner `iterate` generator, then thread it through the
stage chain. -/
def runPipeline (p : Pipeline σ) : Except PyErr (List (Entry × σ) × List String) :=
  match iterateList p.parse p.entriesSource with
  | Except.error e => Except.error e
  | Except.ok (pairs, logs) => runChain p.chain pairs logs

/-- A terminal consumption of the pipeline object: the produced result
together with the pipeline object as it stands afterwards (`__iter__`
mutates only `self._progbar`; it re-invokes the endpoint and rebuilds
every generator on each call). -/
def iterPipeline (p : Pipeline σ) :
    Except PyErr (List (Entry × σ) × List String) × Pipeline σ :=
  (runPipeline p, { p with progbarSet := true })

/-- C1: for every input Record sequence for which no parse call raises,
direct iteration of the pipeline yields exactly one (Record, Structure)
pair per input Record, in the same order as the Record Source produced
them, with Structure equal to parse applied to that Record. -/
theorem direct_iteration_yields_all_pairs (σ : Type) (p : Pipeline σ)
    (f : Entry → σ) (hchain : p.chain = [])
    (h : ∀ e ∈ p.entriesSource, p.parse e = Except.ok (f e)) :
    runPipeline p =
      Except.ok (p.entriesSource.map (fun e => (e, f e)), []) := by
  unfold runPipeline
  rw [iterateList_all_ok p.parse f p.entriesSource h, hchain]
  rfl

/-- A record with no fields, used for concrete instantiations. -/
def entA : Entry := { fields := [], attr := fun _ => "", path := "a" }

/-- A second field-free record. -/
def entB : Entry := { fields := [], attr := fun _ => "", path := "b" }

theorem direct_iteration_yields_all_pairs_witness :
    runPipeline
        { entriesSource := [entA, entB],
          parse := fun _ => Except.ok (0 : Nat), chain := [] } =
      Except.ok ([(entA, 0), (entB, 0)], []) :=
  direct_iteration_yields_all_pairs Nat _ (fun _ => 0) rfl (fun _ _ => rfl)

/-- A parse function that fails (with an ordinary exception) exactly on
the record with path "b". -/
def parseW : Entry → Except PyErr Nat :=
  fun e => if e.path = "b" then Except.error (PyErr.exc "bad file") else Except.ok 0

/-- A stage operation that fails (with a `TypeError`) exactly on the
Structure `1`. -/
def opW : Nat → Except PyErr Nat :=
  fun n => if n = 0 then Except.ok 5 else Except.error PyErr.typeError

/-- C2: for every Record sequence, if parse (or the operation of any
non-group stage: attribute-get, index, call) raises a non-cancellation
exception for some record/pair, that failure is logged and only the
offending record/pair is skipped: iteration continues and yields the
pairs of every other record unchanged (in order), and no exception
escapes to the caller; with exactly one failing parse, iteration yields
`entries.length - 1` pairs and one log line. -/
theorem stage_failures_isolated (σ τ : Type) (parse : Entry → Except PyErr σ)
    (entries : List Entry) (op : σ → Except PyErr τ) (pairs : List (Entry × σ)) :
    ((∀ e ∈ entries, parse e ≠ Except.error PyErr.generatorExit) →
        iterateList parse entries =
          Except.ok
            (entries.filterMap (fun e => (parse e).toOption.map (fun d => (e, d))),
             (entries.filter (fun e => !(parse e).isOk)).map logParseMsg))
    ∧ ((∀ e ∈ entries, parse e ≠ Except.error PyErr.generatorExit) →
        (entries.filter (fun e => !(parse e).isOk)).length = 1 →
        ∃ out logs, iterateList parse entries = Except.ok (out, logs)
          ∧ out.length = entries.length - 1 ∧ logs.length = 1)
    ∧ ((∀ q ∈ pairs, op q.2 ≠ Except.error PyErr.generatorExit) →
        (do_getattr op pairs =
            Except.ok
              (pairs.filterMap (fun q => (op q.2).toOption.map (fun d => (q.1, d))),
               (pairs.filter (fun q => !(op q.2).isOk)).map (fun q => logStageMsg q.1)))
          ∧ (do_getitem op pairs =
            Except.ok
              (pairs.filterMap (fun q => (op q.2).toOption.map (fun d => (q.1, d))),
               (pairs.filter (fun q => !(op q.2).isOk)).map (fun q => logStageMsg q.1)))
          ∧ (do_call op pairs =
            Except.ok
              (pairs.filterMap (fun q => (op q.2).toOption.map (fun d => (q.1, d))),
               (pairs.filter (fun q => !(op q.2).isOk)).map (fun q => logStageMsg q.1)))) := by
  refine ⟨iterateList_no_cancel parse entries, ?_, ?_⟩
  · intro h h1
    refine ⟨_, _, iterateList_no_cancel parse entries h, ?_, ?_⟩
    · have hlen := filterMap_parse_length parse entries
      omega
    · simpa using h1
  · intro h
    exact ⟨stage_loop_no_cancel op pairs h, stage_loop_no_cancel op pairs h,
      stage_loop_no_cancel op pairs h⟩

theorem stage_failures_isolated_witness :
    (∃ out logs, iterateList parseW [entA, entB] = Except.ok (out, logs)
        ∧ out.length = [entA, entB].length - 1 ∧ logs.length = 1)
    ∧ do_getattr opW [(entA, 0), (entB, 1)] =
        Except.ok ([(entA, 5)], [logStageMsg entB]) :=
  ⟨(stage_failures_isolated Nat Nat parseW [entA, entB] opW
        [(entA, 0), (entB, 1)]).2.1
      (by intro e _ h; revert h; unfold parseW; split <;> simp) (by decide),
   ((stage_failures_isolated Nat Nat parseW [entA, entB] opW
        [(entA, 0), (entB, 1)]).2.2
      (by intro q _ h; revert h; unfold opW; split <;> simp)).1⟩

/-- Accumulator loop behind `itertools.groupby`'s adjacent-run
semantics: `acc` holds the (reversed) structures of the run currently
being collected under key `k`; a pair whose key differs closes the run
and starts a new one. -/
def runsByAux (f : Entry → κ) [DecidableEq κ] :
    List (Entry × σ) → κ → List σ → List (κ × List σ)
  | [], k, acc => [(k, acc.reverse)]
  | (e, d) :: rest, k, acc =>
    if f e = k then runsByAux f rest k (d :: acc)
    else (k, acc.reverse) :: runsByAux f rest (f e) [d]

/-- `itertools.groupby(iterator, lambda entryAndData:
groupFunc(entryAndData[0]))` with every sub-iterator consumed in place
(which `do_group` does via `tuple(datas)` inside `concat_maybe`):
partitions the pair list into maximal adjacent runs of equal key. -/
def runsBy (f : Entry → κ) [DecidableEq κ] :
    List (Entry × σ) → List (κ × List σ)
  | [] => []
  | (e, d) :: rest => runsByAux f rest (f e) [d]

/-- A group's combined value: either a single Structure (one-element
run, or successful concatenation) or the untransformed tuple fallback. -/
inductive CombinedData (σ : Type) where
  | struct : σ → CombinedData σ
  | tup : List σ → CombinedData σ
deriving DecidableEq

/-- `Accessor.group.concat_maybe` (accessor.py lines 375-384): a
one-element run passes its Structure through; a longer run is
concatenated with `pd.concat`, falling back to the raw tuple when that
raises `TypeError` (any other exception propagates). -/
def concat_maybe (concat : List σ → Except PyErr σ) (datas : List σ) :
    Except PyErr (CombinedData σ) :=
  match datas with
  | [d] => Except.ok (CombinedData.struct d)
  | ds =>
    match concat ds with
    | Except.ok c => Except.ok (CombinedData.struct c)
    | Except.error PyErr.typeError => Except.ok (CombinedData.tup ds)
    | Except.error e => Except.error e

/-- Effectful map over a list in the `Except` monad, aborting at the
first error — the order in which a generator chain evaluates one result
per group. -/
def mapMExcept (g : α → Except PyErr β) : List α → Except PyErr (List β)
  | [] => Except.ok []
  | a :: rest =>
    match g a with
    | Except.error e => Except.error e
    | Except.ok b =>
      match mapMExcept g rest with
      | Except.error e => Except.error e
      | Except.ok bs => Except.ok (b :: bs)

/-- `Accessor.group.do_group` (accessor.py lines 387-391): group the
upstream pairs into adjacent same-key runs and yield one
`(key, concat_maybe(run))` per run, in order. -/
def do_group (f : Entry → κ) [DecidableEq κ] (concat : List σ → Except PyErr σ)
    (pairs : List (Entry × σ)) : Except PyErr (List (κ × CombinedData σ)) :=
  mapMExcept (fun kr => (concat_maybe concat kr.2).map (fun c => (kr.1, c)))
    (runsBy f pairs)

/-- Expected combined value of a run when concatenation always
succeeds with result `C run`: the single Structure for a one-element
run, the concatenation otherwise. -/
def combineRunModel (C : List σ → σ) : List σ → CombinedData σ
  | [d] => CombinedData.struct d
  | ds => CombinedData.struct (C ds)

/-- Expected combined value of a run when concatenation always fails
with `TypeError`: the single Structure for a one-element run, the raw
tuple otherwise. -/
def fallbackRunModel : List σ → CombinedData σ
  | [d] => CombinedData.struct d
  | ds => CombinedData.tup ds

/-- Re-expands a run list into the flat `(key, structure)` sequence it
covers. -/
def runPairs (runs : List (κ × List σ)) : List (κ × σ) :=
  runs.flatMap (fun kr => kr.2.map (fun d => (kr.1, d)))

theorem runPairs_runsByAux (f : Entry → κ) [DecidableEq κ]
    (rest : List (Entry × σ)) :
    ∀ (k : κ) (acc : List σ),
      runPairs (runsByAux f rest k acc) =
        acc.reverse.map (fun d => (k, d)) ++ rest.map (fun p => (f p.1, p.2)) := by
  induction rest with
  | nil =>
    intro k acc
    simp [runsByAux, runPairs]
  | cons p rest ih =>
    intro k acc
    obtain ⟨e, d⟩ := p
    by_cases h : f e = k
    · rw [runsByAux, if_pos h, ih]
      simp [h, List.reverse_cons]
    · rw [runsByAux, if_neg h]
      have hih := ih (f e) [d]
      simp only [runPairs, List.flatMap_cons] at *
      rw [hih]
      simp

theorem runPairs_runsBy (f : Entry → κ) [DecidableEq κ] (l : List (Entry × σ)) :
    runPairs (runsBy f l) = l.map (fun p => (f p.1, p.2)) := by
  cases l with
  | nil => rfl
  | cons p rest =>
    obtain ⟨e, d⟩ := p
    rw [runsBy, runPairs_runsByAux]
    simp

theorem runsByAux_keys_head (f : Entry → κ) [DecidableEq κ]
    (rest : List (Entry × σ)) :
    ∀ (k : κ) (acc : List σ),
      ∃ t, (runsByAux f rest k acc).map Prod.fst = k :: t := by
  induction rest with
  | nil => intro k acc; exact ⟨[], rfl⟩
  | cons p rest ih =>
    intro k acc
    obtain ⟨e, d⟩ := p
    by_cases h : f e = k
    · obtain ⟨t, ht⟩ := ih k (d :: acc)
      exact ⟨t, by rw [runsByAux, if_pos h]; exact ht⟩
    · exact ⟨(runsByAux f rest (f e) [d]).map Prod.fst,
        by rw [runsByAux, if_neg h]; simp⟩

theorem runsByAux_keys_chain (f : Entry → κ) [DecidableEq κ]
    (rest : List (Entry × σ)) :
    ∀ (k : κ) (acc : List σ),
      List.Chain' (· ≠ ·) ((runsByAux f rest k acc).map Prod.fst) := by
  induction rest with
  | nil => intro k acc; simp [runsByAux]
  | cons p rest ih =>
    intro k acc
    obtain ⟨e, d⟩ := p
    by_cases h : f e = k
    · rw [runsByAux, if_pos h]; exact ih k (d :: acc)
    · rw [runsByAux, if_neg h]
      simp only [List.map_cons]
      obtain ⟨t, ht⟩ := runsByAux_keys_head f rest (f e) [d]
      rw [ht]
      exact List.chain'_cons.mpr ⟨Ne.symm h, ht ▸ ih (f e) [d]⟩

theorem runsByAux_keys_strict (f : Entry → κ) [LinearOrder κ]
    (rest : List (Entry × σ)) :
    ∀ (k : κ) (acc : List σ),
      List.Sorted (· ≤ ·) (k :: rest.map (fun p => f p.1)) →
      List.Chain' (· < ·) ((runsByAux f rest k acc).map Prod.fst) := by
  induction rest with
  | nil => intro k acc _; simp [runsByAux]
  | cons p rest ih =>
    intro k acc hs
    obtain ⟨e, d⟩ := p
    simp only [List.map_cons] at hs
    by_cases h : f e = k
    · rw [runsByAux, if_pos h]
      exact ih k (d :: acc) (h ▸ hs.of_cons)
    · rw [runsByAux, if_neg h]
      simp only [List.map_cons]
      obtain ⟨t, ht⟩ := runsByAux_keys_head f rest (f e) [d]
      rw [ht]
      refine List.chain'_cons.mpr ⟨?_, ht ▸ ih (f e) [d] hs.of_cons⟩
      exact lt_of_le_of_ne ((List.sorted_cons.mp hs).1 (f e) (by simp))
        (Ne.symm h)

theorem runsBy_keys_nodup (f : Entry → κ) [LinearOrder κ]
    (l : List (Entry × σ))
    (hs : List.Sorted (· ≤ ·) (l.map (fun p => f p.1))) :
    ((runsBy f l).map Prod.fst).Nodup := by
  cases l with
  | nil => simp [runsBy]
  | cons p rest =>
    obtain ⟨e, d⟩ := p
    rw [runsBy]
    simp only [List.map_cons] at hs
    have hchain := runsByAux_keys_strict f rest (f e) [d] hs
    have hpw := List.chain'_iff_pairwise.mp hchain
    exact hpw.imp (fun h => LT.lt.ne h)

theorem mapMExcept_ok (g : α → Except PyErr β) (h : α → β) (l : List α)
    (hg : ∀ a ∈ l, g a = Except.ok (h a)) :
    mapMExcept g l = Except.ok (l.map h) := by
  induction l with
  | nil => rfl
  | cons a rest ih =>
    rw [mapMExcept, hg a (List.mem_cons_self a rest),
      ih (fun x hx => hg x (List.mem_cons_of_mem a hx))]
    rfl

theorem concat_maybe_total (concat : List σ → Except PyErr σ)
    (C : List σ → σ) (hc : ∀ ds, concat ds = Except.ok (C ds)) (ds : List σ) :
    concat_maybe concat ds = Except.ok (combineRunModel C ds) := by
  rcases ds with _ | ⟨d, _ | ⟨d2, ds⟩⟩
  · simp [concat_maybe, combineRunModel, hc]
  · rfl
  · simp [concat_maybe, combineRunModel, hc]

theorem concat_maybe_fallback (concat : List σ → Except PyErr σ)
    (hc : ∀ ds, concat ds = Except.error PyErr.typeError) (ds : List σ) :
    concat_maybe concat ds = Except.ok (fallbackRunModel ds) := by
  rcases ds with _ | ⟨d, _ | ⟨d2, ds⟩⟩
  · simp [concat_maybe, fallbackRunModel, hc]
  · rfl
  · simp [concat_maybe, fallbackRunModel, hc]

/-- The record-path as grouping key. -/
def pathKey : Entry → String := fun e => e.path

/-- Path-length grouping key, a concrete numeric key function. -/
def keyLenW : Entry → Nat := fun e => e.path.length

/-- A record with a two-character path. -/
def entBB : Entry := { fields := [], attr := fun _ => "", path := "bb" }

/-- C4: the grouping stage partitions the upstream pair sequence into
maximal runs of adjacent pairs with equal keys (flattening the runs with
their keys recovers the input keyed sequence, and adjacent runs carry
different keys), emits one (key, combined) pair per run in order; on
input pre-sorted by key there is exactly one group per distinct key
(group keys are pairwise distinct), with combined Structure equal to the
concatenation of the run's Structures in original order (or the single
Structure for a one-element run); and on input where equal keys are not
adjacent it emits multiple groups with the same key value (concretely,
paths "a","b","a" yield group keys ["a","b","a"]). -/
theorem group_adjacent_runs (κ σ : Type) [LinearOrder κ] (f : Entry → κ)
    (l : List (Entry × σ)) (concat : List σ → Except PyErr σ) (C : List σ → σ) :
    (runPairs (runsBy f l) = l.map (fun p => (f p.1, p.2)))
    ∧ List.Chain' (· ≠ ·) ((runsBy f l).map Prod.fst)
    ∧ (List.Sorted (· ≤ ·) (l.map (fun p => f p.1)) →
        ((runsBy f l).map Prod.fst).Nodup)
    ∧ ((∀ ds, concat ds = Except.ok (C ds)) →
        do_group f concat l =
          Except.ok ((runsBy f l).map (fun kr => (kr.1, combineRunModel C kr.2))))
    ∧ (runsBy pathKey [(entA, (1 : Nat)), (entB, 2), (entA, 3)]).map Prod.fst
        = ["a", "b", "a"] := by
  refine ⟨runPairs_runsBy f l, ?_, runsBy_keys_nodup f l, ?_, ?_⟩
  · cases l with
    | nil => simp [runsBy]
    | cons p rest =>
      obtain ⟨e, d⟩ := p
      rw [runsBy]
      exact runsByAux_keys_chain f rest (f e) [d]
  · intro hc
    exact mapMExcept_ok _ _ _
      (fun kr _ => by rw [concat_maybe_total concat C hc kr.2]; rfl)
  · rfl

theorem group_adjacent_runs_witness :
    ((runsBy keyLenW [(entA, (1 : Nat)), (entB, 2), (entBB, 5)]).map Prod.fst).Nodup
    ∧ do_group keyLenW (fun ds => Except.ok (ds.foldl (· + ·) 0))
        [(entA, (1 : Nat)), (entB, 2), (entBB, 5)]
        = Except.ok [(1, CombinedData.struct 3), (2, CombinedData.struct 5)] :=
  ⟨(group_adjacent_runs Nat Nat keyLenW [(entA, 1), (entB, 2), (entBB, 5)]
        (fun ds => Except.ok (ds.foldl (· + ·) 0))
        (fun ds => ds.foldl (· + ·) 0)).2.2.1
      (by simp [List.sorted_cons, keyLenW, entA, entB, entBB]; decide),
   (group_adjacent_runs Nat Nat keyLenW [(entA, 1), (entB, 2), (entBB, 5)]
        (fun ds => Except.ok (ds.foldl (· + ·) 0))
        (fun ds => ds.foldl (· + ·) 0)).2.2.2.1 (fun _ => rfl)⟩

/-- C7: in the grouping stage, a run of more than one Structure whose
concatenation raises `TypeError` (heterogeneous non-concatenable types)
does not abort the stage: the untransformed tuple of the run's
Structures is yielded as the combined value, and the chain continues
(the stage still succeeds over the whole input). -/
theorem group_concat_fallback (κ σ : Type) [DecidableEq κ] (f : Entry → κ)
    (l : List (Entry × σ)) (concat : List σ → Except PyErr σ)
    (datas : List σ) :
    (1 < datas.length → concat datas = Except.error PyErr.typeError →
      concat_maybe concat datas = Except.ok (CombinedData.tup datas))
    ∧ ((∀ ds, concat ds = Except.error PyErr.typeError) →
        do_group f concat l =
          Except.ok ((runsBy f l).map (fun kr => (kr.1, fallbackRunModel kr.2)))) := by
  constructor
  · intro hlen hc
    rcases datas with _ | ⟨d, _ | ⟨d2, ds⟩⟩
    · simp at hlen
    · simp at hlen
    · simp [concat_maybe, hc]
  · intro hc
    exact mapMExcept_ok _ _ _
      (fun kr _ => by rw [concat_maybe_fallback concat hc kr.2]; rfl)

theorem group_concat_fallback_witness :
    concat_maybe (fun _ => Except.error PyErr.typeError) [(3 : Nat), 4]
      = Except.ok (CombinedData.tup [3, 4]) :=
  (group_concat_fallback String Nat pathKey []
      (fun _ => Except.error PyErr.typeError) [3, 4]).1 (by simp)
    rfl

/-- `Accessor.ID` (accessor.py lines 229-251) on an `iyore.Entry`,
translated statement by statement.  The Python local `month` is assigned
only inside the `"month" in key.fields` branch; it is modelled as an
`Option Bool` that starts unset, and reading it while unset raises
`UnboundLocalError`, exactly as CPython does for the guard
`if month:` in the `"day"` branch. -/
def Accessor.ID (key : Entry) : Except PyErr String :=
  let e0 : List String := []
  let e1 := if "unit" ∈ key.fields then e0 ++ [key.attr "unit"] else e0
  let e2 := if "site" ∈ key.fields then e1 ++ [key.attr "site"] else e1
  let e3 := if "year" ∈ key.fields then e2 ++ [key.attr "year"] else e2
  let month0 : Option Bool := none
  let s4 :=
    if "month" ∈ key.fields then
      ((if e3.length > 0 then e3 ++ [" "] else e3) ++ [key.attr "month"], some true)
    else (e3, month0)
  let afterDay : Except PyErr (List String) :=
    if "day" ∈ key.fields then
      match s4.2 with
      | none => Except.error (PyErr.unboundLocal "month")
      | some b =>
        Except.ok ((if b then s4.1 ++ ["-"] else s4.1) ++ [key.attr "day"])
    else Except.ok s4.1
  match afterDay with
  | Except.error err => Except.error err
  | Except.ok e5 =>
    let e6 :=
      if "hour" ∈ key.fields then
        (if e5.length > 0 then e5 ++ [" "] else e5) ++ [key.attr "hour" ++ ":"]
      else e5
    if e6.length > 0 then Except.ok (String.join e6) else Except.ok key.path

/-- A record carrying only a `day` field. -/
def entDay : Entry := { fields := ["day"], attr := fun _ => "05", path := "d" }

/-- A record carrying all six identity fields, each field valued by its
own name. -/
def entFull : Entry :=
  { fields := ["unit", "site", "year", "month", "day", "hour"],
    attr := fun n => n, path := "P" }

/-- C8 (code bug): the default identity function crashes instead of
never raising.  On a Record that has a `day` field but no `month` field,
`Accessor.ID` reads the uninitialized local `month`
(`if month: id_elems.append('-')`) and raises `UnboundLocalError`,
contradicting the spec's claim that it never raises for any combination
of present/absent fields.  On records where `month` accompanies `day`
(or `day` is absent) the function behaves as specified: label built from
unit/site/year then month-day and hour with separators, path fallback
when no fields exist. -/
theorem ID_unbound_month_bug :
    Accessor.ID entDay = Except.error (PyErr.unboundLocal "month")
    ∧ Accessor.ID entFull = Except.ok "unitsiteyear month-day hour:"
    ∧ Accessor.ID entA = Except.ok "a" :=
  ⟨rfl, rfl, rfl⟩

/-- Outcome, as observed by the run, of one element travelling through a
stage's try/except body: delivered downstream, logged-and-skipped, or
the stage terminated by a re-raised `GeneratorExit`. -/
inductive StepOutcome (α : Type) where
  | yielded : α → StepOutcome α
  | skipped
  | cancelled

/-- Pure composition of the chain's stage operations (no exception
handling), used to phrase "all operations succeed on this element". -/
def applyOps (ops : List (σ → Except PyErr σ)) (d : σ) : Except PyErr σ :=
  match ops with
  | [] => Except.ok d
  | op :: rest =>
    match op d with
    | Except.ok d' => applyOps rest d'
    | Except.error e => Except.error e

/-- One element travelling down the stage chain.  Each stage's loop body
is `try: yield entry, op(data) except GeneratorExit: raise GeneratorExit
except: log` (accessor.py lines 396-405, 412-421, 428-437): an operation
raising `GeneratorExit` is re-raised, any other exception is logged and
the pair skipped, and if the consumer has closed the generator then
`GeneratorExit` is raised at the yield — inside the same try — and
re-raised, cascading up through every stage.  `close` records whether
the final consumer closes the run upon this delivery. -/
def yieldThrough (ops : List (σ → Except PyErr σ)) (close : Bool) (e : Entry)
    (d : σ) : StepOutcome (Entry × σ) :=
  match ops with
  | [] => if close then StepOutcome.cancelled else StepOutcome.yielded (e, d)
  | op :: rest =>
    match op d with
    | Except.ok d' => yieldThrough rest close e d'
    | Except.error err =>
      if err = PyErr.generatorExit then StepOutcome.cancelled
      else StepOutcome.skipped

/-- One record pulled from `iterate` through the whole chain: `parse`
runs inside `iterate`'s try/except (accessor.py lines 467-475), then the
pair travels through the chained stage generators. -/
def pullOne (parse : Entry → Except PyErr σ) (ops : List (σ → Except PyErr σ))
    (close : Bool) (e : Entry) : StepOutcome (Entry × σ) :=
  match parse e with
  | Except.ok d => yieldThrough ops close e d
  | Except.error err =>
    if err = PyErr.generatorExit then StepOutcome.cancelled
    else StepOutcome.skipped

theorem yieldThrough_close (ops : List (σ → Except PyErr σ)) (e : Entry) :
    ∀ d, (applyOps ops d).isOk = true →
      yieldThrough ops true e d = StepOutcome.cancelled := by
  induction ops with
  | nil => intro d _; rfl
  | cons op rest ih =>
    intro d hok
    unfold yieldThrough
    cases hop : op d with
    | ok d' =>
      exact ih d' (by simpa [applyOps, hop] using hok)
    | error err =>
      exfalso
      simp [applyOps, hop, Except.isOk, Except.toBool] at hok

/-- C5: a cancellation signal (generator close) raised while the caller
is consuming mid-chain propagates through every stage's error-isolation
logic to the caller, terminating the run — the observed outcome is
`cancelled`, never the logged-and-skipped outcome of a per-record or
per-pair stage failure.  Likewise a `GeneratorExit` surfacing from
upstream is re-raised by `iterate` itself rather than logged. -/
theorem cancellation_propagates (σ : Type) (parse : Entry → Except PyErr σ)
    (ops : List (σ → Except PyErr σ)) (e : Entry) (d : σ) :
    (parse e = Except.ok d → (applyOps ops d).isOk = true →
      pullOne parse ops true e = StepOutcome.cancelled)
    ∧ (parse e = Except.error PyErr.generatorExit →
        ∀ close, pullOne parse ops close e = StepOutcome.cancelled) := by
  constructor
  · intro hp hok
    unfold pullOne
    rw [hp]
    exact yieldThrough_close ops e d hok
  · intro hp close
    unfold pullOne
    rw [hp]
    simp

theorem cancellation_propagates_witness :
    pullOne (fun _ => Except.ok (0 : Nat)) [fun n => Except.ok (n + 1)] true entA
      = StepOutcome.cancelled :=
  (cancellation_propagates Nat (fun _ => Except.ok 0)
      [fun n => Except.ok (n + 1)] entA 0).1 rfl rfl

/-- A 2-D pandas DataFrame as the combiner inspects it: its row-label
set (`df.index`), its column-label set (`df.columns`), and the dtype of
its row index (`df.index.dtype`), coarsened to a numeric tag. -/
structure DataFrame where
  index : Finset Nat
  columns : Finset Nat
  indexDtype : Nat
deriving DecidableEq

/-- `Accessor.combine.percentIndexOverlap` (accessor.py lines 300-312):
the fraction of axis labels common to all NDFrames in `results`,
relative to the largest single result's labels on that axis.  `getter`
plays `operator.attrgetter(attr)`; the dict's values are carried as a
list in insertion order.  `max` over an empty sequence and division by
zero raise, as in Python; the quotient itself is exact rational
arithmetic. -/
def percentIndexOverlap (getter : DataFrame → Finset Nat)
    (results : List DataFrame) : Except PyErr ℚ :=
  match results with
  | [] => Except.error (PyErr.exc "max() arg is an empty sequence")
  | df :: rest =>
    let longest := ((df :: rest).map (fun d => (getter d).card)).foldl max 0
    let mutualColumns := rest.foldl (fun acc d => acc ∩ getter d) (getter df)
    if longest = 0 then Except.error (PyErr.exc "ZeroDivisionError")
    else Except.ok ((mutualColumns.card : ℚ) / (longest : ℚ))

/-- What the DataFrame arm of `combine`'s merge decision produces: a 3-D
`pd.Panel` keyed by identity, a vertically stacked two-level-index
DataFrame (`pd.concat(results)`), or fall-through to returning the raw
per-identity dict. -/
inductive DFCombineOutcome where
  | panel
  | multiIndexConcat
  | noMerge
deriving DecidableEq

/-- The `isinstance(exampleResult, pd.DataFrame)` arm of
`Accessor.combine` (accessor.py lines 333-347), reached when there are
at least two identities and every per-identity result is a DataFrame:
column overlap is computed first; only if it reaches the 0.75 threshold
is row overlap computed; sufficient row overlap yields a Panel, else a
consistent row-index dtype yields a vertically stacked DataFrame, else
(or when column overlap is below threshold) control falls through to
`return results`. -/
def combineDataFrames (results : List DataFrame) : Except PyErr DFCombineOutcome :=
  match results with
  | [] => Except.error (PyErr.exc "unreachable: guarded by len(results) checks")
  | exampleResult :: rest =>
    match percentIndexOverlap DataFrame.columns (exampleResult :: rest) with
    | Except.error e => Except.error e
    | Except.ok colOverlap =>
      if (3 : ℚ)/4 ≤ colOverlap then
        match percentIndexOverlap DataFrame.index (exampleResult :: rest) with
        | Except.error e => Except.error e
        | Except.ok rowOverlap =>
          if (3 : ℚ)/4 ≤ rowOverlap then Except.ok DFCombineOutcome.panel
          else if (exampleResult :: rest).all
              (fun df => df.indexDtype == exampleResult.indexDtype) then
            Except.ok DFCombineOutcome.multiIndexConcat
          else Except.ok DFCombineOutcome.noMerge
      else Except.ok DFCombineOutcome.noMerge

/-- C3: with two or more identities whose results are all 2-D tables,
the merge is decided by the overlap fractions — intersection of the
axis's labels across all results over the largest single result's label
count on that axis, compared inclusively against 0.75: column and row
overlap both ≥ 0.75 gives the 3-D cube (Panel); column overlap ≥ 0.75
with row overlap < 0.75 and all row-index dtypes equal gives the
vertically stacked two-level-index table; column overlap < 0.75 returns
the raw per-identity mapping. -/
theorem dataframe_merge_overlap_heuristic (exampleResult : DataFrame)
    (rest : List DataFrame) (hlen : rest ≠ []) (colOverlap : ℚ)
    (hcol : percentIndexOverlap DataFrame.columns (exampleResult :: rest)
      = Except.ok colOverlap) :
    (((3 : ℚ)/4 ≤ colOverlap → ∀ rowOverlap,
        percentIndexOverlap DataFrame.index (exampleResult :: rest)
          = Except.ok rowOverlap →
        (((3 : ℚ)/4 ≤ rowOverlap →
            combineDataFrames (exampleResult :: rest)
              = Except.ok DFCombineOutcome.panel)
         ∧ (rowOverlap < (3 : ℚ)/4 →
            ((exampleResult :: rest).all
                (fun df => df.indexDtype == exampleResult.indexDtype)) = true →
            combineDataFrames (exampleResult :: rest)
              = Except.ok DFCombineOutcome.multiIndexConcat)))
     ∧ (colOverlap < (3 : ℚ)/4 →
        combineDataFrames (exampleResult :: rest)
          = Except.ok DFCombineOutcome.noMerge)) := by
  constructor
  · intro hc rowOverlap hrow
    constructor
    · intro hr
      simp only [combineDataFrames, hcol]
      rw [if_pos hc]
      simp only [hrow]
      rw [if_pos hr]
    · intro hr hdtype
      simp only [combineDataFrames, hcol]
      rw [if_pos hc]
      simp only [hrow]
      rw [if_neg (not_le.mpr hr), if_pos hdtype]
  · intro hc
    simp only [combineDataFrames, hcol]
    rw [if_neg (not_le.mpr hc)]

/-- A 2-by-2 DataFrame with rows {1,2} and columns {1,2}. -/
def dfW : DataFrame := { index := {1, 2}, columns := {1, 2}, indexDtype := 0 }

theorem dataframe_merge_overlap_heuristic_witness :
    combineDataFrames [dfW, dfW] = Except.ok DFCombineOutcome.panel :=
  ((dataframe_merge_overlap_heuristic dfW [dfW] (by simp) 1
      (by simp [percentIndexOverlap, dfW])).1 (by norm_num) 1
      (by simp [percentIndexOverlap, dfW])).1 (by norm_num)

/-- The value `flat` inside `combine`'s per-identity loop: normally a
single Structure (`datas[0]` or `pd.concat(datas)`), but the raw list
when concatenation of scalars raised `TypeError` (accessor.py lines
266-280). -/
inductive FlatVal (σ : Type) where
  | data : σ → FlatVal σ
  | listFallback : List σ → FlatVal σ
deriving DecidableEq

/-- An entry of `combine`'s `results` dict after the per-identity loop:
either the finisher's output, or — when the finisher raised and the
assignment `results[ID_name] = func(flat)` never executed — the
identity's original list of Structures, left in place. -/
inductive CombineSlot (σ τ : Type) where
  | raw : List σ → CombineSlot σ τ
  | finished : τ → CombineSlot σ τ
deriving DecidableEq

/-- `flat = pd.concat(datas, copy=False) if len(datas) > 1 else
datas[0]` guarded by `except TypeError` (accessor.py lines 267-280):
`TypeError` from concatenation falls back to the raw list (with a
warning); an empty list would raise `IndexError` (uncaught, but
unreachable: `defaultdict` slots are only created by appending); other
exceptions propagate. -/
def flattenDatas (concat : List σ → Except PyErr σ) (datas : List σ) :
    Except PyErr (FlatVal σ) :=
  match datas with
  | [] => Except.error (PyErr.exc "IndexError")
  | [d] => Except.ok (FlatVal.data d)
  | ds =>
    match concat ds with
    | Except.ok c => Except.ok (FlatVal.data c)
    | Except.error PyErr.typeError => Except.ok (FlatVal.listFallback ds)
    | Except.error e => Except.error e

/-- One iteration of `combine`'s per-identity loop (accessor.py lines
266-286): flatten the identity's list, then `try: results[ID_name] =
func(flat) except: print(...)`.  The bare `except` catches every
finisher failure; on failure the assignment does not happen, so the
slot keeps the identity's original `datas` list. -/
def processIdentity (concat : List σ → Except PyErr σ)
    (func : FlatVal σ → Except PyErr τ) (datas : List σ) :
    Except PyErr (CombineSlot σ τ) :=
  match flattenDatas concat datas with
  | Except.error e => Except.error e
  | Except.ok flat =>
    match func flat with
    | Except.ok v => Except.ok (CombineSlot.finished v)
    | Except.error _ => Except.ok (CombineSlot.raw datas)

/-- The whole `for ID_name, datas in iteritems(results)` loop of
`combine`, over the dict as an insertion-ordered association list. -/
def combineProcess (concat : List σ → Except PyErr σ)
    (func : FlatVal σ → Except PyErr τ)
    (results : List (String × List σ)) :
    Except PyErr (List (String × CombineSlot σ τ)) :=
  mapMExcept
    (fun p =>
      match processIdentity concat func p.2 with
      | Except.ok s => Except.ok (p.1, s)
      | Except.error e => Except.error e)
    results

/-- A finisher on Nat data that fails exactly on the value 1. -/
def funcW : FlatVal Nat → Except PyErr Nat :=
  fun fv =>
    match fv with
    | FlatVal.data 1 => Except.error (PyErr.exc "boom")
    | FlatVal.data n => Except.ok n
    | FlatVal.listFallback _ => Except.ok 99

/-- C6 counterexample: with identities "a" (datas [1]) and "b"
(datas [2]) and a finisher that raises on identity "a"'s value, the
final mapping still contains identity "a" — bound to its original raw
list — rather than leaving that identity's slot unset/absent as the
claim states. -/
theorem finisher_failure_slot_retained_cex :
    combineProcess (fun _ => Except.ok 0) funcW [("a", [1]), ("b", [2])]
        = Except.ok [("a", CombineSlot.raw [1]), ("b", CombineSlot.finished 2)]
    ∧ (fun l => l.map Prod.fst) [("a", CombineSlot.raw (σ := Nat) [1]),
        ("b", CombineSlot.finished (2 : Nat))] = ["a", "b"] :=
  ⟨rfl, rfl⟩

/-- C6 amended: for every identity whose finisher call raises, the
failure is caught and reported (not propagated) and the results of all
other identities are unaffected — each slot is computed independently —
but the failing identity's slot is NOT removed: it remains in the final
mapping bound to that identity's original (pre-finisher) list of
Structures. -/
theorem finisher_failure_isolation (σ τ : Type)
    (concat : List σ → Except PyErr σ) (func : FlatVal σ → Except PyErr τ)
    (results : List (String × List σ)) :
    ((∀ p ∈ results, (processIdentity concat func p.2).isOk = true) →
      ∃ out, combineProcess concat func results = Except.ok out
        ∧ out.map Prod.fst = results.map Prod.fst
        ∧ List.Forall₂
            (fun (p : String × List σ) (q : String × CombineSlot σ τ) =>
              processIdentity concat func p.2 = Except.ok q.2)
            results out)
    ∧ (∀ (datas : List σ) (flat : FlatVal σ) (err : PyErr),
        flattenDatas concat datas = Except.ok flat →
        func flat = Except.error err →
        processIdentity concat func datas = Except.ok (CombineSlot.raw datas)) := by
  constructor
  · intro h
    induction results with
    | nil => exact ⟨[], rfl, rfl, List.Forall₂.nil⟩
    | cons p rest ih =>
      have hp : (processIdentity concat func p.2).isOk = true :=
        h p (List.mem_cons_self p rest)
      obtain ⟨out, hout, hfst, hall⟩ :=
        ih (fun x hx => h x (List.mem_cons_of_mem p hx))
      cases hps : processIdentity concat func p.2 with
      | error e => rw [hps] at hp; simp [Except.isOk, Except.toBool] at hp
      | ok s =>
        refine ⟨(p.1, s) :: out, ?_, ?_, ?_⟩
        · rw [combineProcess, mapMExcept, hps]
          rw [combineProcess] at hout
          rw [hout]
        · simp [hfst]
        · exact List.Forall₂.cons hps hall
  · intro datas flat err hflat hfunc
    simp only [processIdentity, hflat, hfunc]

theorem finisher_failure_isolation_witness :
    (∃ out,
        combineProcess (fun _ => Except.ok 0) funcW [("a", [1]), ("b", [2])]
          = Except.ok out
        ∧ out.map Prod.fst = [("a", [1]), ("b", [2])].map Prod.fst
        ∧ List.Forall₂
            (fun (p : String × List Nat) (q : String × CombineSlot Nat Nat) =>
              processIdentity (fun _ => Except.ok 0) funcW p.2 = Except.ok q.2)
            [("a", [1]), ("b", [2])] out)
    ∧ processIdentity (fun _ => Except.ok 0) funcW [1]
        = Except.ok (CombineSlot.raw [1]) :=
  ⟨(finisher_failure_isolation Nat Nat (fun _ => Except.ok 0) funcW
        [("a", [1]), ("b", [2])]).1
      (by intro p hp
          rcases List.mem_cons.mp hp with rfl | hp
          · rfl
          · rcases List.mem_cons.mp hp with rfl | hp
            · rfl
            · cases hp),
   (finisher_failure_isolation Nat Nat (fun _ => Except.ok 0) funcW
        [("a", [1]), ("b", [2])]).2 [1] (FlatVal.data 1) (PyErr.exc "boom")
      rfl rfl⟩

/-- `pd.concat` on the DataFrame capability model: stacking frames
unions row labels and column labels; the result's index dtype is taken
from the first frame. -/
def dfConcat (dfs : List DataFrame) : DataFrame :=
  { index := dfs.foldl (fun a d => a ∪ d.index) ∅,
    columns := dfs.foldl (fun a d => a ∪ d.columns) ∅,
    indexDtype :=
      (dfs.headD { index := ∅, columns := ∅, indexDtype := 0 }).indexDtype }

/-- Append `d` to the bucket for key `k`, creating the bucket at the
end if absent — `collections.defaultdict(list)` append with insertion
order. -/
def appendToBucket (m : List (String × List σ)) (k : String) (d : σ) :
    List (String × List σ) :=
  match m with
  | [] => [(k, [d])]
  | (k', ds) :: rest =>
    if k' = k then (k', ds ++ [d]) :: rest
    else (k', ds) :: appendToBucket rest k d

/-- `combine`'s bucketing loop (accessor.py lines 259-262):
`for key, data in iter(self): results[ID(key)].append(data)`.  An
exception from the identity function is not caught and aborts the
call. -/
def bucketByID (ID : Entry → Except PyErr String) :
    List (Entry × σ) → List (String × List σ) →
    Except PyErr (List (String × List σ))
  | [], m => Except.ok m
  | (e, d) :: rest, m =>
    match ID e with
    | Except.error err => Except.error err
    | Except.ok k => bucketByID ID rest (appendToBucket m k d)

/-- `type(data) == type(exampleResult)` on post-loop slots: a raw
Python `list` and a `pd.DataFrame` are distinct types. -/
def slotSameType :
    CombineSlot DataFrame DataFrame → CombineSlot DataFrame DataFrame → Bool
  | CombineSlot.raw _, CombineSlot.raw _ => true
  | CombineSlot.finished _, CombineSlot.finished _ => true
  | _, _ => false

/-- What `combine` returns in the DataFrame instantiation: the raw
per-identity dict, a single identity's bare value (`popitem`), a Panel
keyed by identity, or the vertically stacked two-level-index frame. -/
inductive CombineReturn where
  | mapping : List (String × CombineSlot DataFrame DataFrame) → CombineReturn
  | single : CombineSlot DataFrame DataFrame → CombineReturn
  | panel : List (String × DataFrame) → CombineReturn
  | multiIndexConcat : List (String × DataFrame) → CombineReturn

/-- The identity-to-DataFrame pairs among the processed slots. -/
def finishedEntries (l : List (String × CombineSlot DataFrame DataFrame)) :
    List (String × DataFrame) :=
  l.filterMap
    (fun p =>
      match p.2 with
      | CombineSlot.finished df => some (p.1, df)
      | CombineSlot.raw _ => none)

/-- `Accessor.combine` (accessor.py lines 253-355) instantiated at
DataFrame-valued results, with its full signature
`combine(func, into=None, ID=None, *args, **kwargs)`: bucket the
iterated pairs by identity, flatten and apply the finisher per identity,
then return the single value / empty dict for fewer than two
identities, or dispatch on the common type of the results.  All-
DataFrame results go through the overlap heuristic; all-`list` results
(every finisher call failed) enter the `isinstance(exampleResult,
(pd.Series, list))` arm, where `len(operator.attrgetter("index")(lst))`
— `len` of a bound method — raises an uncaught `TypeError`; mixed types
return the raw dict.  The `into` parameter appears in the signature
only; no statement of the body reads it. -/
def combine {α : Type} (func : FlatVal DataFrame → Except PyErr DataFrame)
    (into : α) (ID : Entry → Except PyErr String)
    (pairs : List (Entry × DataFrame)) : Except PyErr CombineReturn :=
  match bucketByID ID pairs [] with
  | Except.error e => Except.error e
  | Except.ok results =>
    match combineProcess (fun ds => Except.ok (dfConcat ds)) func results with
    | Except.error e => Except.error e
    | Except.ok processed =>
      match processed with
      | [] => Except.ok (CombineReturn.mapping [])
      | [onlyEntry] => Except.ok (CombineReturn.single onlyEntry.2)
      | exampleEntry :: restEntries =>
        if restEntries.all (fun p => slotSameType p.2 exampleEntry.2) then
          match exampleEntry.2 with
          | CombineSlot.finished _ =>
            match combineDataFrames
                ((finishedEntries (exampleEntry :: restEntries)).map Prod.snd) with
            | Except.error e => Except.error e
            | Except.ok DFCombineOutcome.panel =>
              Except.ok
                (CombineReturn.panel (finishedEntries (exampleEntry :: restEntries)))
            | Except.ok DFCombineOutcome.multiIndexConcat =>
              Except.ok (CombineReturn.multiIndexConcat
                (finishedEntries (exampleEntry :: restEntries)))
            | Except.ok DFCombineOutcome.noMerge =>
              Except.ok (CombineReturn.mapping (exampleEntry :: restEntries))
          | CombineSlot.raw _ => Except.error PyErr.typeError
        else Except.ok (CombineReturn.mapping (exampleEntry :: restEntries))

/-- C10: the value of `combine`'s `into` parameter never influences the
returned result — `combine(func, into=x, ...)` equals
`combine(func, into=None, ...)` for every `x`, of any type: the
parameter is accepted but unused. -/
theorem combine_into_unused (α β : Type) (x : α) (y : β)
    (func : FlatVal DataFrame → Except PyErr DataFrame)
    (ID : Entry → Except PyErr String) (pairs : List (Entry × DataFrame)) :
    combine func x ID pairs = combine func y ID pairs := rfl

/-- A one-record pipeline whose parse always succeeds with value 7. -/
def pW : Pipeline Nat :=
  { entriesSource := [entA], parse := fun _ => Except.ok 7, chain := [] }

/-- C9 counterexample: after fully consuming the pipeline `pW` once, a
second consumption of the same pipeline object yields the same single
pair again — not an empty result.  `__iter__` re-invokes the Catalog
endpoint and rebuilds the generator chain on every call, mutating only
the progress bar, so no cursor state survives a consumption. -/
theorem second_consumption_not_empty_cex :
    (iterPipeline (iterPipeline pW).2).1 = Except.ok ([(entA, 7)], [])
    ∧ [(entA, (7 : Nat))] ≠ [] :=
  ⟨rfl, by simp⟩

/-- C9 amended: once a terminal operation has fully consumed the chain,
a second consumption of the same pipeline object repeats the first —
it re-materializes the Record Source and re-parses, yielding the same
pairs (in particular one pair per record when every parse succeeds and
the chain is empty), not an empty result. -/
theorem second_consumption_repeats (σ : Type) (p : Pipeline σ) (f : Entry → σ) :
    ((iterPipeline (iterPipeline p).2).1 = (iterPipeline p).1)
    ∧ (p.chain = [] → (∀ e ∈ p.entriesSource, p.parse e = Except.ok (f e)) →
        (iterPipeline (iterPipeline p).2).1
          = Except.ok (p.entriesSource.map (fun e => (e, f e)), [])) := by
  constructor
  · rfl
  · intro hchain h
    have hiter := iterateList_all_ok p.parse f p.entriesSource h
    show runPipeline { p with progbarSet := true } = _
    simp only [runPipeline, hiter, hchain, runChain]

theorem second_consumption_repeats_witness :
    (iterPipeline (iterPipeline pW).2).1 = Except.ok ([(entA, 7)], []) :=
  (second_consumption_repeats Nat pW (fun _ => 7)).2 rfl (fun _ _ => rfl)
